import Mathlib

/-!
Shallow embedding of the timeburn browser extension's tracking controller
(src/background.js) and the popup's reset action (src/popup.js).

The controller's module-level mutable globals (`currentSite`, `lastUpdateTime`,
`intervalId`, `enabledPlatforms`) become fields of an explicit `ControllerState`;
the two `chrome.storage.local` keys (`timeData`, `settings`) become a `Storage`
record; each operation becomes a pure state transformer.  Timestamps and minute
counts are modelled as `Int` (JS numbers used only at integral values here), and
`Math.floor(x / 60000)` on an integer difference is `Int.fdiv _ 60000`.

Per the spec's concurrency model (section 5), callbacks are serialized and each
operation's awaited storage steps are treated as atomic, so an `async` function
is embedded as a single state transformer run to completion.

The browser built-in `new URL(url).hostname` is not repository code; operations
that use it take a `parse : String → Option String` parameter, where `none`
models the constructor throwing on a malformed URL.
-/

namespace Timeburn

/-- A statically tracked site, from the `TRACKED_SITES` entries in
src/background.js (each `{ hostname, name }`). -/
structure TrackedSite where
  hostname : String
  name : String
deriving DecidableEq, Repr

/-- The static `TRACKED_SITES` list of src/background.js. -/
def TRACKED_SITES : List TrackedSite :=
  [⟨"axiom.trade", "Axiom"⟩, ⟨"trade.padre.gg", "Terminal"⟩, ⟨"gmgn.ai", "Gmgn"⟩]

/-- A JS object mapping hostnames to booleans (`enabledPlatforms`), modelled as
an association list; an absent key reads as falsy (`undefined`). -/
abbrev EnabledMap := List (String × Bool)

/-- Property read `m[h]` on an `enabledPlatforms` object, with JS truthiness:
an absent key is `undefined`, hence falsy. -/
def lookupEnabled : EnabledMap → String → Bool
  | [], _ => false
  | (k, v) :: rest, h => if k = h then v else lookupEnabled rest h

/-- The `DEFAULT_SETTINGS.enabledPlatforms` object of src/background.js. -/
def DEFAULT_ENABLED : EnabledMap :=
  [("axiom.trade", true), ("trade.padre.gg", false), ("gmgn.ai", false)]

/-- One value of the persisted `timeData` map: `{ name, totalMinutes }`. -/
structure SiteEntry where
  name : String
  totalMinutes : Int
deriving DecidableEq, Repr

/-- The persisted `timeData` object: hostname keyed association list. -/
abbrev TimeData := List (String × SiteEntry)

/-- Property read `td[h]` on a `timeData` object (`none` = `undefined`). -/
def lookupTD : TimeData → String → Option SiteEntry
  | [], _ => none
  | (k, v) :: rest, h => if k = h then some v else lookupTD rest h

/-- Property write `td[h] = e` on a `timeData` object: overwrite in place if the
key is present, otherwise insert. -/
def setEntry : TimeData → String → SiteEntry → TimeData
  | [], h, e => [(h, e)]
  | (k, v) :: rest, h, e =>
      if k = h then (h, e) :: rest else (k, v) :: setEntry rest h e

/-- The persisted `settings` record, as far as the controller reads it:
`enabledPlatforms` may itself be absent (`data.settings.enabledPlatforms ||
DEFAULT_SETTINGS.enabledPlatforms` in `initializeStorage`). -/
structure Settings where
  enabledPlatforms : Option EnabledMap
deriving DecidableEq, Repr

/-- The `chrome.storage.local` contents at the two keys the system uses;
`none` models an unset key. -/
structure Storage where
  timeData : Option TimeData
  settings : Option Settings
deriving DecidableEq, Repr

/-- The controller's module-level mutable state in src/background.js:
`currentSite`, `lastUpdateTime`, `intervalId` (modelled as a Boolean "a
periodic timer is armed"), and the cached `enabledPlatforms`. -/
structure ControllerState where
  currentSite : Option TrackedSite
  lastUpdateTime : Int
  intervalArmed : Bool
  enabledPlatforms : EnabledMap
deriving DecidableEq, Repr

/-- `getTrackedSite(url)` of src/background.js lines 51-67: returns the tracked
site matching the URL's hostname only if it is enabled; a missing or empty URL,
a URL the parser rejects, an unknown hostname, or a disabled platform all give
`none`.  `parse` stands for the built-in `new URL(url).hostname`. -/
def getTrackedSite (parse : String → Option String) (enabled : EnabledMap)
    (url : Option String) : Option TrackedSite :=
  match url with
  | none => none
  | some u =>
    if u = "" then none
    else
      match parse u with
      | none => none
      | some host =>
        match TRACKED_SITES.find? (fun s => host = s.hostname) with
        | none => none
        | some site => if lookupEnabled enabled site.hostname then some site else none

/-- `updateTime()` of src/background.js lines 78-99: no-op without a current
site; otherwise computes `elapsedMinutes = Math.floor((now - lastUpdateTime) /
60000)` and, when it is at least 1, creates a zero entry for the site if absent,
adds the elapsed minutes to its total, persists, and sets `lastUpdateTime = now`. -/
def updateTime (st : ControllerState) (sto : Storage) (now : Int) :
    ControllerState × Storage :=
  match st.currentSite with
  | none => (st, sto)
  | some site =>
    let elapsedMinutes := Int.fdiv (now - st.lastUpdateTime) 60000
    if 1 ≤ elapsedMinutes then
      let td := sto.timeData.getD []
      let entry := (lookupTD td site.hostname).getD ⟨site.name, 0⟩
      let td := setEntry td site.hostname ⟨entry.name, entry.totalMinutes + elapsedMinutes⟩
      ({ st with lastUpdateTime := now }, { sto with timeData := some td })
    else (st, sto)

/-- `stopTracking()` of src/background.js lines 116-125: cancel the periodic
timer if armed, perform a final `updateTime()` if a session is active, then
clear `currentSite`. -/
def stopTracking (st : ControllerState) (sto : Storage) (now : Int) :
    ControllerState × Storage :=
  let st1 := { st with intervalArmed := false }
  let p := if st1.currentSite.isSome then updateTime st1 sto now else (st1, sto)
  ({ p.1 with currentSite := none }, p.2)

/-- `startTracking(site)` of src/background.js lines 102-113: no-op when the
argument's hostname equals the current site's (`currentSite?.hostname ===
site?.hostname`, with both-absent comparing equal); otherwise stop the existing
session, set `currentSite := site` and `lastUpdateTime := now`, and arm the
10-second periodic timer when `site` is present. -/
def startTracking (st : ControllerState) (sto : Storage)
    (site : Option TrackedSite) (now : Int) : ControllerState × Storage :=
  if st.currentSite.map (fun s => s.hostname) = site.map (fun s => s.hostname) then
    (st, sto)
  else
    let p := stopTracking st sto now
    let st2 := { p.1 with currentSite := site, lastUpdateTime := now }
    let st3 := if site.isSome then { st2 with intervalArmed := true } else st2
    (st3, p.2)

/-- The `updateEnabledPlatforms` branch of the `chrome.runtime.onMessage`
listener, src/background.js lines 181-199: replace `enabledPlatforms` with the
message's map, then re-evaluate the foreground tab (`foreground = none` models
`tabs[0]` being absent, `some url` its `url` field): stop tracking if the tab no
longer resolves to a tracked site, start tracking when it resolves to a site
with a hostname different from the current one. -/
def onUpdateEnabledPlatforms (parse : String → Option String)
    (st : ControllerState) (sto : Storage) (newMap : EnabledMap)
    (foreground : Option (Option String)) (now : Int) : ControllerState × Storage :=
  let st := { st with enabledPlatforms := newMap }
  match foreground with
  | none => (st, sto)
  | some url =>
    match getTrackedSite parse newMap url with
    | none => stopTracking st sto now
    | some site =>
      if st.currentSite.map (fun s => s.hostname) ≠ some site.hostname then
        startTracking st sto (some site) now
      else (st, sto)

/-- The `timeData` object built by `initializeStorage` when the key is absent. -/
def INITIAL_TIME_DATA : TimeData :=
  TRACKED_SITES.map (fun s => (s.hostname, ⟨s.name, 0⟩))

/-- `initializeStorage()` of src/background.js lines 25-48 (named
`initializeStorage` in the source): seed `timeData` with zero entries when the
key is absent; seed `settings` with the defaults when absent, otherwise load
`enabledPlatforms` from it, falling back to the defaults when the field is
missing. -/
def initStorage (st : ControllerState) (sto : Storage) :
    ControllerState × Storage :=
  let sto1 :=
    if sto.timeData.isNone then { sto with timeData := some INITIAL_TIME_DATA }
    else sto
  match sto.settings with
  | none =>
      ({ st with enabledPlatforms := DEFAULT_ENABLED },
       { sto1 with settings := some ⟨some DEFAULT_ENABLED⟩ })
  | some s =>
      ({ st with enabledPlatforms := s.enabledPlatforms.getD DEFAULT_ENABLED }, sto1)

/-- The `timeData` object written by the popup's reset action
(src/popup.js lines 147-151). -/
def RESET_DATA : TimeData :=
  [("axiom.trade", ⟨"Axiom", 0⟩), ("trade.padre.gg", ⟨"Terminal", 0⟩),
   ("gmgn.ai", ⟨"Gmgn", 0⟩)]

/-- `resetAllData()` of src/popup.js lines 140-159: when the user confirms,
overwrite `timeData` with zero totals for all three tracked sites. -/
def resetAllData (confirmed : Bool) (sto : Storage) : Storage :=
  if confirmed then { sto with timeData := some RESET_DATA } else sto

/-- Persisted total for a hostname, read through the same `|| {}` fallback
`updateTime` uses (`none` = no entry for that hostname). -/
def totalOf (sto : Storage) (h : String) : Option Int :=
  (lookupTD (sto.timeData.getD []) h).map (fun e => e.totalMinutes)

/-- The timer/session coupling: a periodic timer is armed exactly when a
session is active. -/
def timerInv (st : ControllerState) : Prop :=
  st.intervalArmed = true ↔ st.currentSite.isSome = true

/-- A concrete tracked site, used by witnesses. -/
def sampleSite : TrackedSite := ⟨"axiom.trade", "Axiom"⟩

/-- A concrete controller state with an active session, used by witnesses. -/
def sampleState : ControllerState := ⟨some sampleSite, 0, true, DEFAULT_ENABLED⟩

/-- A concrete storage with 5 persisted minutes for the sample site, used by
witnesses. -/
def sampleStorage : Storage := ⟨some [("axiom.trade", ⟨"Axiom", 5⟩)], none⟩

/-- A concrete URL parser standing in for `new URL(_).hostname`, used by
witnesses: accepts exactly one well-formed URL. -/
def sampleParse : String → Option String :=
  fun u => if u = "https://axiom.trade/home" then some "axiom.trade" else none

theorem lookupTD_setEntry_self (td : TimeData) (h : String) (e : SiteEntry) :
    lookupTD (setEntry td h e) h = some e := by
  induction td with
  | nil => simp [setEntry, lookupTD]
  | cons kv rest ih =>
    obtain ⟨k, v⟩ := kv
    by_cases hk : k = h
    · simp [setEntry, hk, lookupTD]
    · simp [setEntry, hk, lookupTD, ih]

theorem lookupTD_setEntry_ne (td : TimeData) (h h' : String) (e : SiteEntry)
    (hne : h' ≠ h) : lookupTD (setEntry td h e) h' = lookupTD td h' := by
  induction td with
  | nil => simp [setEntry, lookupTD, Ne.symm hne]
  | cons kv rest ih =>
    obtain ⟨k, v⟩ := kv
    by_cases hk : k = h
    · subst hk
      simp [setEntry, lookupTD, Ne.symm hne]
    · simp [setEntry, hk, lookupTD, ih]

theorem updateTime_of_noSession (st : ControllerState) (sto : Storage) (now : Int)
    (h : st.currentSite = none) : updateTime st sto now = (st, sto) := by
  simp [updateTime, h]

theorem updateTime_of_small (st : ControllerState) (sto : Storage) (now : Int)
    (h : Int.fdiv (now - st.lastUpdateTime) 60000 < 1) :
    updateTime st sto now = (st, sto) := by
  unfold updateTime
  cases hc : st.currentSite with
  | none => rfl
  | some site => simp [not_le.mpr h]

theorem updateTime_eq_flush (st : ControllerState) (sto : Storage) (now : Int)
    (site : TrackedSite) (hc : st.currentSite = some site)
    (hm : 1 ≤ Int.fdiv (now - st.lastUpdateTime) 60000) :
    updateTime st sto now =
      ({ st with lastUpdateTime := now },
       { sto with timeData := some (setEntry (sto.timeData.getD []) site.hostname
           ⟨((lookupTD (sto.timeData.getD []) site.hostname).getD ⟨site.name, 0⟩).name,
            ((lookupTD (sto.timeData.getD []) site.hostname).getD ⟨site.name, 0⟩).totalMinutes +
              Int.fdiv (now - st.lastUpdateTime) 60000⟩) }) := by
  simp only [updateTime, hc, hm, if_true]

theorem updateTime_flush (st : ControllerState) (sto : Storage) (now : Int)
    (site : TrackedSite) (hc : st.currentSite = some site)
    (hm : 1 ≤ Int.fdiv (now - st.lastUpdateTime) 60000) :
    (updateTime st sto now).1 = { st with lastUpdateTime := now } ∧
    totalOf (updateTime st sto now).2 site.hostname =
      some ((totalOf sto site.hostname).getD 0 +
        Int.fdiv (now - st.lastUpdateTime) 60000) ∧
    (∀ h, h ≠ site.hostname →
      totalOf (updateTime st sto now).2 h = totalOf sto h) ∧
    (updateTime st sto now).2.settings = sto.settings := by
  rw [updateTime_eq_flush st sto now site hc hm]
  refine ⟨rfl, ?_, ?_, rfl⟩
  · simp only [totalOf, Option.getD_some, lookupTD_setEntry_self, Option.map_some]
    cases hE : lookupTD (sto.timeData.getD []) site.hostname with
    | none => simp [hE]
    | some e => simp [hE]
  · intro h hne
    simp only [totalOf, Option.getD_some, lookupTD_setEntry_ne _ _ _ _ hne]

theorem updateTime_fst_frame (st : ControllerState) (sto : Storage) (now : Int) :
    (updateTime st sto now).1.currentSite = st.currentSite ∧
    (updateTime st sto now).1.intervalArmed = st.intervalArmed ∧
    (updateTime st sto now).1.enabledPlatforms = st.enabledPlatforms := by
  cases hc : st.currentSite with
  | none => rw [updateTime_of_noSession st sto now hc]; exact ⟨hc, rfl, rfl⟩
  | some site =>
    by_cases hm : 1 ≤ Int.fdiv (now - st.lastUpdateTime) 60000
    · rw [updateTime_eq_flush st sto now site hc hm]; exact ⟨hc, rfl, rfl⟩
    · rw [updateTime_of_small st sto now (not_le.mp hm)]; exact ⟨hc, rfl, rfl⟩

theorem totalOf_updateTime_le (st : ControllerState) (sto : Storage) (now : Int)
    (h : String) (old : Int) (hh : totalOf sto h = some old) :
    ∃ n, totalOf (updateTime st sto now).2 h = some n ∧ old ≤ n := by
  cases hc : st.currentSite with
  | none => exact ⟨old, by rw [updateTime_of_noSession st sto now hc]; exact hh, le_refl old⟩
  | some site =>
    by_cases hm : 1 ≤ Int.fdiv (now - st.lastUpdateTime) 60000
    · obtain ⟨-, htot, hframe, -⟩ := updateTime_flush st sto now site hc hm
      by_cases hhost : h = site.hostname
      · subst hhost
        refine ⟨old + Int.fdiv (now - st.lastUpdateTime) 60000, ?_, ?_⟩
        · rw [htot, hh]; rfl
        · have : (0 : Int) ≤ Int.fdiv (now - st.lastUpdateTime) 60000 :=
            le_trans (by norm_num) hm
          omega
      · exact ⟨old, by rw [hframe h hhost]; exact hh, le_refl old⟩
    · exact ⟨old, by rw [updateTime_of_small st sto now (not_le.mp hm)]; exact hh,
        le_refl old⟩

theorem stopTracking_fst (st : ControllerState) (sto : Storage) (now : Int) :
    (stopTracking st sto now).1.currentSite = none ∧
    (stopTracking st sto now).1.intervalArmed = false ∧
    (stopTracking st sto now).1.enabledPlatforms = st.enabledPlatforms := by
  unfold stopTracking
  dsimp only
  split
  · refine ⟨rfl, ?_, ?_⟩
    · exact (updateTime_fst_frame { st with intervalArmed := false } sto now).2.1
    · exact (updateTime_fst_frame { st with intervalArmed := false } sto now).2.2
  · exact ⟨rfl, rfl, rfl⟩

theorem stopTracking_snd_active (st : ControllerState) (sto : Storage) (now : Int)
    (site : TrackedSite) (hc : st.currentSite = some site) :
    (stopTracking st sto now).2 =
      (updateTime { st with intervalArmed := false } sto now).2 := by
  simp only [stopTracking, hc, Option.isSome_some, if_true]

theorem stopTracking_snd_idle (st : ControllerState) (sto : Storage) (now : Int)
    (hc : st.currentSite = none) : (stopTracking st sto now).2 = sto := by
  simp only [stopTracking, hc, Option.isSome_none, Bool.false_eq_true, if_false]

theorem totalOf_stopTracking_le (st : ControllerState) (sto : Storage) (now : Int)
    (h : String) (old : Int) (hh : totalOf sto h = some old) :
    ∃ n, totalOf (stopTracking st sto now).2 h = some n ∧ old ≤ n := by
  cases hc : st.currentSite with
  | none =>
    exact ⟨old, by rw [stopTracking_snd_idle st sto now hc]; exact hh, le_refl old⟩
  | some site =>
    rw [stopTracking_snd_active st sto now site hc]
    exact totalOf_updateTime_le _ sto now h old hh

theorem totalOf_stopTracking_other (st : ControllerState) (sto : Storage)
    (now : Int) (site : TrackedSite) (h : String)
    (hc : st.currentSite = some site) (hne : h ≠ site.hostname) :
    totalOf (stopTracking st sto now).2 h = totalOf sto h := by
  rw [stopTracking_snd_active st sto now site hc]
  by_cases hm : 1 ≤ Int.fdiv (now - st.lastUpdateTime) 60000
  · exact (updateTime_flush { st with intervalArmed := false } sto now site hc hm).2.2.1 h hne
  · rw [updateTime_of_small { st with intervalArmed := false } sto now (not_le.mp hm)]

theorem startTracking_switch (st : ControllerState) (sto : Storage)
    (site : Option TrackedSite) (now : Int)
    (hne : st.currentSite.map (fun s => s.hostname) ≠ site.map (fun s => s.hostname)) :
    (startTracking st sto site now).1.currentSite = site ∧
    (startTracking st sto site now).1.lastUpdateTime = now ∧
    (startTracking st sto site now).1.intervalArmed = site.isSome ∧
    (startTracking st sto site now).2 = (stopTracking st sto now).2 := by
  unfold startTracking
  rw [if_neg hne]
  cases site with
  | none => exact ⟨rfl, rfl, (stopTracking_fst st sto now).2.1, rfl⟩
  | some s => exact ⟨rfl, rfl, rfl, rfl⟩

theorem totalOf_startTracking_le (st : ControllerState) (sto : Storage)
    (site : Option TrackedSite) (now : Int) (h : String) (old : Int)
    (hh : totalOf sto h = some old) :
    ∃ n, totalOf (startTracking st sto site now).2 h = some n ∧ old ≤ n := by
  unfold startTracking
  dsimp only
  split
  · exact ⟨old, hh, le_refl old⟩
  · exact totalOf_stopTracking_le st sto now h old hh

theorem totalOf_onUpdate_le (parse : String → Option String) (st : ControllerState)
    (sto : Storage) (newMap : EnabledMap) (ftab : Option (Option String))
    (now : Int) (h : String) (old : Int) (hh : totalOf sto h = some old) :
    ∃ n, totalOf (onUpdateEnabledPlatforms parse st sto newMap ftab now).2 h = some n ∧
      old ≤ n := by
  unfold onUpdateEnabledPlatforms
  cases ftab with
  | none => exact ⟨old, hh, le_refl old⟩
  | some url =>
    dsimp only
    cases hg : getTrackedSite parse newMap url with
    | none => exact totalOf_stopTracking_le _ sto now h old hh
    | some s =>
      dsimp only
      split
      · exact totalOf_startTracking_le _ sto _ now h old hh
      · exact ⟨old, hh, le_refl old⟩

theorem initStorage_timeData (st : ControllerState) (sto : Storage) (td : TimeData)
    (h : sto.timeData = some td) : (initStorage st sto).2.timeData = some td := by
  unfold initStorage
  cases hs : sto.settings <;> simp [h]

theorem totalOf_initStorage (st : ControllerState) (sto : Storage) (h : String)
    (old : Int) (hh : totalOf sto h = some old) :
    totalOf (initStorage st sto).2 h = some old := by
  cases htd : sto.timeData with
  | none =>
    rw [totalOf, htd] at hh
    simp [lookupTD] at hh
  | some td =>
    rw [totalOf, initStorage_timeData st sto td htd]
    rw [totalOf, htd] at hh
    exact hh

theorem resetAllData_not_confirmed (sto : Storage) : resetAllData false sto = sto := rfl

theorem resetAllData_zeroes (sto : Storage) (hn : String)
    (hmem : hn ∈ TRACKED_SITES.map (fun s => s.hostname)) :
    totalOf (resetAllData true sto) hn = some 0 := by
  simp only [TRACKED_SITES, List.map_cons, List.map_nil, List.mem_cons,
    List.not_mem_nil, or_false] at hmem
  rcases hmem with rfl | rfl | rfl <;> rfl

theorem startTracking_noop (st : ControllerState) (sto : Storage)
    (site : Option TrackedSite) (now : Int)
    (h : st.currentSite.map (fun s => s.hostname) = site.map (fun s => s.hostname)) :
    startTracking st sto site now = (st, sto) := by
  unfold startTracking
  rw [if_pos h]

theorem startTracking_enabled (st : ControllerState) (sto : Storage)
    (site : Option TrackedSite) (now : Int) :
    (startTracking st sto site now).1.enabledPlatforms = st.enabledPlatforms := by
  unfold startTracking
  split
  · rfl
  · cases site with
    | none => exact (stopTracking_fst st sto now).2.2
    | some s => exact (stopTracking_fst st sto now).2.2

/-- C1: the claim states that a flush with at least one elapsed whole minute
advances `lastFlushTime` by exactly `elapsedMinutes * 60000`, preserving the
sub-minute remainder.  The code (src/background.js line 97) instead sets
`lastUpdateTime = now`, discarding the remainder: with `lastUpdateTime = 0`
and `now = 90000` (one and a half minutes), one minute is credited but
`lastUpdateTime` becomes `90000`, not `0 + 1 * 60000 = 60000`, so the
30000 ms remainder is lost. -/
theorem updateTime_sets_lastUpdateTime_to_now :
    Int.fdiv (90000 - sampleState.lastUpdateTime) 60000 = 1 ∧
    (updateTime sampleState sampleStorage 90000).1.lastUpdateTime = 90000 ∧
    (updateTime sampleState sampleStorage 90000).1.lastUpdateTime ≠
      sampleState.lastUpdateTime +
        Int.fdiv (90000 - sampleState.lastUpdateTime) 60000 * 60000 := by
  refine ⟨by decide, by decide, by decide⟩

/-- C2: stopping while a session is active cancels the periodic timer,
performs one final flush that credits the elapsed whole minutes to the old
site's persisted total, and clears `currentSite`; switching to a site with a
different hostname routes through the same stop, so the old site is credited
while the new site's total is untouched and the new session's flush clock is
reset to `now`. -/
theorem stopTracking_credits_old_site (st : ControllerState) (sto : Storage)
    (now : Int) (site newSite : TrackedSite)
    (hc : st.currentSite = some site) (hne : newSite.hostname ≠ site.hostname) :
    (stopTracking st sto now).1.intervalArmed = false ∧
    (stopTracking st sto now).1.currentSite = none ∧
    (1 ≤ Int.fdiv (now - st.lastUpdateTime) 60000 →
      totalOf (stopTracking st sto now).2 site.hostname =
        some ((totalOf sto site.hostname).getD 0 +
          Int.fdiv (now - st.lastUpdateTime) 60000)) ∧
    (startTracking st sto (some newSite) now).2 = (stopTracking st sto now).2 ∧
    totalOf (startTracking st sto (some newSite) now).2 newSite.hostname =
      totalOf sto newSite.hostname ∧
    (startTracking st sto (some newSite) now).1.currentSite = some newSite ∧
    (startTracking st sto (some newSite) now).1.lastUpdateTime = now := by
  have hmapne : st.currentSite.map (fun s => s.hostname) ≠
      (some newSite).map (fun s => s.hostname) := by
    rw [hc]
    intro hcontra
    simp only [Option.map_some', Option.some.injEq] at hcontra
    exact hne hcontra.symm
  obtain ⟨f1, f2, -⟩ := stopTracking_fst st sto now
  obtain ⟨s1, s2, s3, s4⟩ := startTracking_switch st sto (some newSite) now hmapne
  refine ⟨f2, f1, ?_, s4, ?_, s1, s2⟩
  · intro hm
    rw [stopTracking_snd_active st sto now site hc]
    exact (updateTime_flush { st with intervalArmed := false } sto now site hc hm).2.1
  · rw [s4]
    exact totalOf_stopTracking_other st sto now site newSite.hostname hc hne

theorem stopTracking_credits_old_site_witness :
    totalOf (stopTracking sampleState sampleStorage 1500000).2 "axiom.trade" =
      some 30 ∧
    totalOf (startTracking sampleState sampleStorage
      (some ⟨"gmgn.ai", "Gmgn"⟩) 1500000).2 "gmgn.ai" = none := by
  have h := stopTracking_credits_old_site sampleState sampleStorage 1500000
    sampleSite ⟨"gmgn.ai", "Gmgn"⟩ rfl (by decide)
  exact ⟨(h.2.2.1 (by decide)).trans (by decide), (h.2.2.2.2.1).trans (by decide)⟩

/-- C3: `getTrackedSite` returns a tracked site exactly when the URL is
present, non-empty, and parses to that site's hostname, the hostname is in the
static tracked list, and `enabledPlatforms` maps the hostname to true; in
particular unknown hostnames and disabled platforms resolve to `none`. -/
theorem getTrackedSite_characterization (parse : String → Option String)
    (enabled : EnabledMap) (url : Option String) (s : TrackedSite) :
    getTrackedSite parse enabled url = some s ↔
      (s ∈ TRACKED_SITES ∧ lookupEnabled enabled s.hostname = true ∧
        ∃ u, url = some u ∧ u ≠ "" ∧ parse u = some s.hostname) := by
  constructor
  · intro hres
    cases url with
    | none => simp [getTrackedSite] at hres
    | some u =>
      simp only [getTrackedSite] at hres
      by_cases hu : u = ""
      · rw [if_pos hu] at hres
        exact absurd hres (by simp)
      · rw [if_neg hu] at hres
        cases hp : parse u with
        | none => rw [hp] at hres; exact absurd hres (by simp)
        | some host =>
          rw [hp] at hres
          dsimp only at hres
          cases hf : TRACKED_SITES.find? (fun t => host = t.hostname) with
          | none => rw [hf] at hres; exact absurd hres (by simp)
          | some site =>
            rw [hf] at hres
            dsimp only at hres
            by_cases he : lookupEnabled enabled site.hostname = true
            · rw [if_pos he] at hres
              have hsite : site = s := Option.some.inj hres
              have hhost : host = s.hostname := by
                rw [← hsite]
                have hps := List.find?_some hf
                simpa using hps
              refine ⟨?_, ?_, u, rfl, hu, by rw [hp, hhost]⟩
              · rw [← hsite]
                exact List.mem_of_find?_eq_some hf
              · rw [← hsite]
                exact he
            · rw [if_neg he] at hres
              exact absurd hres (by simp)
  · rintro ⟨hmem, he, u, rfl, hu, hp⟩
    have hfind : TRACKED_SITES.find? (fun t => s.hostname = t.hostname) = some s := by
      simp only [TRACKED_SITES, List.mem_cons, List.not_mem_nil, or_false] at hmem
      rcases hmem with rfl | rfl | rfl <;> rfl
    simp only [getTrackedSite]
    rw [if_neg hu, hp]
    dsimp only
    rw [hfind]
    dsimp only
    rw [if_pos he]

theorem getTrackedSite_characterization_witness :
    getTrackedSite sampleParse DEFAULT_ENABLED
      (some "https://axiom.trade/home") = some sampleSite :=
  (getTrackedSite_characterization sampleParse DEFAULT_ENABLED
    (some "https://axiom.trade/home") sampleSite).mpr
    ⟨by decide, by decide, "https://axiom.trade/home", rfl, by decide, by decide⟩

/-- C4: a missing URL, an empty URL, or a URL the parser rejects (the model of
the `URL` constructor throwing, caught by the function's try/catch) resolves
to `none`; `getTrackedSite` is total, so no exception escapes its boundary. -/
theorem getTrackedSite_malformed_none (parse : String → Option String)
    (enabled : EnabledMap) (url : Option String)
    (h : url = none ∨ url = some "" ∨ ∀ u, url = some u → parse u = none) :
    getTrackedSite parse enabled url = none := by
  rcases h with rfl | rfl | hp
  · rfl
  · rfl
  · cases url with
    | none => rfl
    | some u =>
      simp only [getTrackedSite]
      by_cases hu : u = ""
      · rw [if_pos hu]
      · rw [if_neg hu, hp u rfl]

theorem getTrackedSite_malformed_none_witness :
    getTrackedSite sampleParse DEFAULT_ENABLED (some "not a url") = none :=
  getTrackedSite_malformed_none sampleParse DEFAULT_ENABLED (some "not a url")
    (Or.inr (Or.inr (fun u hu =>
      (Option.some.inj hu) ▸ (by decide : sampleParse "not a url" = none))))

/-- C5: `startTracking` is idempotent: when the argument's hostname equals the
current site's hostname the call is a complete no-op, leaving `lastUpdateTime`,
the timer, and everything else unchanged. -/
theorem startTracking_idempotent (st : ControllerState) (sto : Storage)
    (site : Option TrackedSite) (now : Int)
    (h : st.currentSite.map (fun s => s.hostname) = site.map (fun s => s.hostname)) :
    startTracking st sto site now = (st, sto) :=
  startTracking_noop st sto site now h

theorem startTracking_idempotent_witness :
    startTracking sampleState sampleStorage (some sampleSite) 90000 =
      (sampleState, sampleStorage) :=
  startTracking_idempotent sampleState sampleStorage (some sampleSite) 90000 rfl

/-- C6: a flush with an active session and `n = floor((now - lastFlushTime) /
60000) ≥ 1` elapsed whole minutes adds exactly `n` to the persisted total of
the current site's hostname, treating a missing entry as a fresh zero entry. -/
theorem updateTime_adds_elapsed_minutes (st : ControllerState) (sto : Storage)
    (now : Int) (site : TrackedSite) (n : Int)
    (hc : st.currentSite = some site)
    (hn : Int.fdiv (now - st.lastUpdateTime) 60000 = n) (hm : 1 ≤ n) :
    totalOf (updateTime st sto now).2 site.hostname =
      some ((totalOf sto site.hostname).getD 0 + n) := by
  subst hn
  exact (updateTime_flush st sto now site hc hm).2.1

theorem updateTime_adds_elapsed_minutes_witness :
    totalOf (updateTime sampleState sampleStorage 1500000).2 "axiom.trade" =
      some 30 := by
  have h := updateTime_adds_elapsed_minutes sampleState sampleStorage 1500000
    sampleSite 25 rfl (by decide) (by decide)
  exact h.trans (by decide)

/-- C7: a flush with less than one elapsed whole minute changes neither the
controller state (in particular `lastUpdateTime`) nor the storage, and a flush
with no current site is a complete no-op. -/
theorem updateTime_subminute_noop (st : ControllerState) (sto : Storage)
    (now : Int) :
    (st.currentSite = none → updateTime st sto now = (st, sto)) ∧
    (Int.fdiv (now - st.lastUpdateTime) 60000 < 1 →
      updateTime st sto now = (st, sto)) :=
  ⟨updateTime_of_noSession st sto now, updateTime_of_small st sto now⟩

theorem updateTime_subminute_noop_witness :
    updateTime sampleState sampleStorage 59999 = (sampleState, sampleStorage) :=
  (updateTime_subminute_noop sampleState sampleStorage 59999).2 (by decide)

/-- C8: on an `updateEnabledPlatforms` message the controller replaces its
cached `enabledPlatforms` with the message's map and re-evaluates the
foreground tab: when the tab no longer resolves to an enabled tracked site,
tracking stops (the session is cleared, so no further minutes can accrue to
the disabled site); when the tab resolves to a site with a different hostname,
tracking of that site starts. -/
theorem onUpdateEnabledPlatforms_reevaluates (parse : String → Option String)
    (st : ControllerState) (sto : Storage) (newMap : EnabledMap)
    (ftab : Option (Option String)) (now : Int) :
    (onUpdateEnabledPlatforms parse st sto newMap ftab now).1.enabledPlatforms =
      newMap ∧
    (∀ url, ftab = some url →
      (getTrackedSite parse newMap url = none →
        onUpdateEnabledPlatforms parse st sto newMap ftab now =
          stopTracking { st with enabledPlatforms := newMap } sto now ∧
        (onUpdateEnabledPlatforms parse st sto newMap ftab now).1.currentSite =
          none) ∧
      (∀ s, getTrackedSite parse newMap url = some s →
        st.currentSite.map (fun t => t.hostname) ≠ some s.hostname →
        onUpdateEnabledPlatforms parse st sto newMap ftab now =
          startTracking { st with enabledPlatforms := newMap } sto (some s) now ∧
        (onUpdateEnabledPlatforms parse st sto newMap ftab now).1.currentSite =
          some s)) := by
  constructor
  · cases ftab with
    | none => rfl
    | some url =>
      dsimp only [onUpdateEnabledPlatforms]
      cases hg : getTrackedSite parse newMap url with
      | none => exact (stopTracking_fst _ sto now).2.2
      | some s =>
        dsimp only
        split
        · exact startTracking_enabled _ sto (some s) now
        · rfl
  · rintro url rfl
    constructor
    · intro hnone
      have he : onUpdateEnabledPlatforms parse st sto newMap (some url) now =
          stopTracking { st with enabledPlatforms := newMap } sto now := by
        dsimp only [onUpdateEnabledPlatforms]
        rw [hnone]
      refine ⟨he, ?_⟩
      rw [he]
      exact (stopTracking_fst _ sto now).1
    · intro s hs hne
      have he : onUpdateEnabledPlatforms parse st sto newMap (some url) now =
          startTracking { st with enabledPlatforms := newMap } sto (some s) now := by
        dsimp only [onUpdateEnabledPlatforms]
        rw [hs]
        dsimp only
        rw [if_pos hne]
      refine ⟨he, ?_⟩
      rw [he]
      exact (startTracking_switch { st with enabledPlatforms := newMap } sto
        (some s) now hne).1

theorem onUpdateEnabledPlatforms_reevaluates_witness :
    (onUpdateEnabledPlatforms sampleParse sampleState sampleStorage
      [("axiom.trade", false)]
      (some (some "https://axiom.trade/home")) 1500000).1.currentSite = none := by
  have h := onUpdateEnabledPlatforms_reevaluates sampleParse sampleState
    sampleStorage [("axiom.trade", false)]
    (some (some "https://axiom.trade/home")) 1500000
  exact ((h.2 (some "https://axiom.trade/home") rfl).1 (by decide)).2

/-- C9: for every hostname with a persisted entry, the persisted total is
monotonically non-decreasing under every controller operation (flush, stop,
start, settings update, storage initialization) and under a cancelled reset;
the confirmed user reset is the only lowering operation, and it zeroes every
tracked site's total. -/
theorem totalMinutes_monotone (parse : String → Option String)
    (st : ControllerState) (sto : Storage) (now : Int)
    (site : Option TrackedSite) (newMap : EnabledMap)
    (ftab : Option (Option String)) (h : String) (old : Int)
    (hh : totalOf sto h = some old) :
    (∃ n, totalOf (updateTime st sto now).2 h = some n ∧ old ≤ n) ∧
    (∃ n, totalOf (stopTracking st sto now).2 h = some n ∧ old ≤ n) ∧
    (∃ n, totalOf (startTracking st sto site now).2 h = some n ∧ old ≤ n) ∧
    (∃ n, totalOf (onUpdateEnabledPlatforms parse st sto newMap ftab now).2 h =
      some n ∧ old ≤ n) ∧
    totalOf (initStorage st sto).2 h = some old ∧
    totalOf (resetAllData false sto) h = some old ∧
    (∀ hn, hn ∈ TRACKED_SITES.map (fun s => s.hostname) →
      totalOf (resetAllData true sto) hn = some 0) :=
  ⟨totalOf_updateTime_le st sto now h old hh,
   totalOf_stopTracking_le st sto now h old hh,
   totalOf_startTracking_le st sto site now h old hh,
   totalOf_onUpdate_le parse st sto newMap ftab now h old hh,
   totalOf_initStorage st sto h old hh,
   by rw [resetAllData_not_confirmed]; exact hh,
   fun hn hmem => resetAllData_zeroes sto hn hmem⟩

theorem totalMinutes_monotone_witness :
    (∃ n, totalOf (updateTime sampleState sampleStorage 1500000).2
      "axiom.trade" = some n ∧ (5 : Int) ≤ n) ∧
    totalOf (resetAllData true sampleStorage) "axiom.trade" = some 0 := by
  have h := totalMinutes_monotone sampleParse sampleState sampleStorage 1500000
    none [] none "axiom.trade" 5 (by decide)
  exact ⟨h.1, h.2.2.2.2.2.2 "axiom.trade" (by decide)⟩

/-- C10: the timer/session coupling invariant — a periodic flush timer is
armed exactly when a session is active — holds in the initial idle state, is
preserved by every `startTracking` call, and is re-established unconditionally
by every `stopTracking` call. -/
theorem timer_armed_iff_session (st : ControllerState) (sto : Storage)
    (site : Option TrackedSite) (now : Int) (t : Int) (m : EnabledMap) :
    timerInv ⟨none, t, false, m⟩ ∧
    (timerInv st → timerInv (startTracking st sto site now).1) ∧
    timerInv (stopTracking st sto now).1 := by
  refine ⟨by simp [timerInv], ?_, ?_⟩
  · intro hInv
    by_cases hcond : st.currentSite.map (fun s => s.hostname) =
        site.map (fun s => s.hostname)
    · rw [startTracking_noop st sto site now hcond]
      exact hInv
    · obtain ⟨s1, s2, s3, -⟩ := startTracking_switch st sto site now hcond
      rw [timerInv, s1, s3]
  · obtain ⟨f1, f2, -⟩ := stopTracking_fst st sto now
    rw [timerInv, f1, f2]
    simp

theorem timer_armed_iff_session_witness :
    timerInv (startTracking sampleState sampleStorage none 1500000).1 ∧
    timerInv (stopTracking sampleState sampleStorage 1500000).1 :=
  ⟨(timer_armed_iff_session sampleState sampleStorage none 1500000 0 []).2.1
      (by simp [timerInv, sampleState]),
   (timer_armed_iff_session sampleState sampleStorage none 1500000 0 []).2.2⟩

end Timeburn
